import Mathlib

/-!
Shallow embedding of the message-dispatch core of `ref-fvm`:
`src/fvm/src/call_manager.rs`, `src/fvm/src/init_actor.rs` and
`src/sdk/src/send.rs`, together with the external collaborators those
files use (gas tracker, state tree, persistent address map, per-call
kernel phase), which are not part of the three source files and are
therefore modelled from the specification's interface descriptions.

Machine integers are modelled as `Nat`/`Int`; token amounts as `Nat`
(they are non-negative big integers); content identifiers and actor
IDs as `Nat`; byte strings as `List Nat`.
-/

namespace RefFvm

/-! ## Addresses (`fvm_shared::address`)

An address is either a canonical numeric-ID address or a key-style /
actor-style address carrying a byte payload.  Filecoin protocol tags:
ID = 0, Secp256k1 = 1, Actor = 2, BLS = 3. -/

inductive Address where
  | id (a : Nat)
  | secp256k1 (key : List Nat)
  | actor (hash : List Nat)
  | bls (key : List Nat)
deriving DecidableEq, Repr

inductive Protocol where
  | ID
  | Secp256k1
  | Actor
  | BLS
deriving DecidableEq, Repr

def Address.protocol : Address → Protocol
  | .id _ => .ID
  | .secp256k1 _ => .Secp256k1
  | .actor _ => .Actor
  | .bls _ => .BLS

def Address.isID : Address → Bool
  | .id _ => true
  | _ => false

/-- Serialized form of an address: the protocol tag followed by the
payload bytes (for ID addresses, the varint-encoded id; the exact byte
encoding is irrelevant to the claims, only injectivity matters). -/
def Address.to_bytes : Address → List Nat
  | .id a => 0 :: [a]
  | .secp256k1 k => 1 :: k
  | .actor h => 2 :: h
  | .bls k => 3 :: k

/-- Length of a BLS public key in bytes. -/
def BLS_PUB_LEN : Nat := 48

/-- The reserved null/zero BLS key address. -/
def BLS_ZERO_ADDRESS : Address := .bls (List.replicate BLS_PUB_LEN 0)

def Address.is_bls_zero_address (a : Address) : Bool :=
  a = BLS_ZERO_ADDRESS

/-! ## Errors of the core -/

inductive Err where
  | outOfGas
  | illegalArgument (msg : String)
  | actorNotFound (a : Address)
  | actorDoesNotExist (idx : Nat)
  | loadModuleFailed (code : Nat)
  | storeFailure
  | kernelFault (n : Nat)
deriving DecidableEq, Repr

/-! ## The persistent address map (HAMT)

Modelled from the spec: the content-addressed persistent map
(`make_map_with_root_and_bitwidth`, `get`, `set`, `flush` of the `adt`
module) is not among the source files; §6 specifies it as persistent
map primitives `open(root, bit-width)`, `get(key) -> Option(value)`,
`set(key, value)`, `flush() -> root`.  Since the root content
identifier determines the map's contents, a root is modelled by the
association list it denotes (most recent binding first; `set`
overwrites by shadowing).  Store I/O failure of each primitive is
modelled by an explicit failure oracle. -/

abbrev AddrMap := List (List Nat × Nat)

def mapGet (m : AddrMap) (k : List Nat) : Option Nat :=
  m.lookup k

def mapSet (m : AddrMap) (k : List Nat) (v : Nat) : AddrMap :=
  (k, v) :: m

/-- Failure oracle for the underlying block store, one flag per
persistent-map primitive that the init-actor state functions invoke. -/
structure StoreOracle where
  openErr : Bool
  getErr : Bool
  setErr : Bool
  flushErr : Bool
deriving DecidableEq, Repr

/-- The store oracle under which no store operation fails. -/
def okStore : StoreOracle := ⟨false, false, false, false⟩

/-! ## Init actor state (`src/fvm/src/init_actor.rs`) -/

def FIRST_NON_SINGLETON_ADDR : Nat := 100

namespace InitActor

/-- `init_actor.rs`: `State { address_map, next_id, network_name }`.
The `address_map` field holds the map root, modelled by the map's
contents (see above). -/
structure State where
  address_map : AddrMap
  next_id : Nat
  network_name : String
deriving DecidableEq, Repr

/-- `State::new`: empty map, `next_id` at the first non-reserved ID. -/
def State.new (network_name : String) : State :=
  { address_map := [], next_id := FIRST_NON_SINGLETON_ADDR, network_name }

/-- `State::map_address_to_new_id`: reads `next_id`, increments it,
then opens the map, inserts `addr.to_bytes() → id` and flushes the new
root back into the struct.  Each of open/set/flush may fail with a
store error (modelled by the oracle); note that `next_id` is
incremented before any fallible step. -/
def State.map_address_to_new_id (o : StoreOracle) (s : State) (addr : Address) :
    Except Err Nat × State :=
  let idN := s.next_id
  let s1 : State := { s with next_id := s.next_id + 1 }
  if o.openErr then (.error .storeFailure, s1)
  else if o.setErr then (.error .storeFailure, s1)
  else
    let m := mapSet s1.address_map addr.to_bytes idN
    if o.flushErr then (.error .storeFailure, s1)
    else (.ok idN, { s1 with address_map := m })

/-- `State::resolve_address`: an ID payload is returned as-is before
the map is ever opened; otherwise the serialized address bytes are
looked up in the map. -/
def State.resolve_address (o : StoreOracle) (s : State) (addr : Address) :
    Except Err (Option Nat) :=
  match addr with
  | .id i => .ok (some i)
  | _ =>
    if o.openErr then .error .storeFailure
    else if o.getErr then .error .storeFailure
    else .ok (mapGet s.address_map addr.to_bytes)

/-- Running a sequence of allocations (with a non-failing store),
collecting the returned ids. -/
def allocRun (s : State) : List Address → List Nat × State
  | [] => ([], s)
  | a :: as =>
    match State.map_address_to_new_id okStore s a with
    | (.ok idN, s1) =>
      let (ids, s2) := allocRun s1 as
      (idN :: ids, s2)
    | (.error _, s1) => ([], s1)

end InitActor

/-! ## Gas tracker

Modelled from the spec: the `GasTracker` implementation is not among
the source files (only its call sites in `call_manager.rs` are).  §3:
"`gas_limit` (fixed at construction), `gas_used` (monotonically
non-decreasing while calls succeed). Invariant: `gas_used ≤ gas_limit`
after any successful charge; a charge that would violate this fails
atomically (no partial charge) and leaves `gas_used` unchanged."
§4.1: "`charge_gas(charge)` deducts `charge`'s cost from remaining
budget; fails with `OutOfGas` if the deduction would exceed the limit";
"`gas_available()` returns `gas_limit - gas_used`". -/

structure GasCharge where
  compute_gas : Int
  storage_gas : Int
deriving DecidableEq, Repr

def GasCharge.total (c : GasCharge) : Int := c.compute_gas + c.storage_gas

structure GasTracker where
  gas_limit : Int
  gas_used : Int
deriving DecidableEq, Repr

def GasTracker.new (gas_limit gas_used : Int) : GasTracker :=
  { gas_limit, gas_used }

/-- Modelled from the spec: charging fails with `OutOfGas` when the
deduction would exceed the limit, in which case `gas_used` is left
unchanged (atomic failure); otherwise `gas_used` increases by the
charge's total cost. -/
def GasTracker.charge_gas (t : GasTracker) (c : GasCharge) : Option Err × GasTracker :=
  if t.gas_limit < t.gas_used + c.total then (some .outOfGas, t)
  else (none, { t with gas_used := t.gas_used + c.total })

def GasTracker.gas_available (t : GasTracker) : Int :=
  t.gas_limit - t.gas_used

/-- Running a sequence of charges, stopping at the first failure and
returning the tracker state reached. -/
def chargeSeq (t : GasTracker) : List GasCharge → Option Err × GasTracker
  | [] => (none, t)
  | c :: cs =>
    match t.charge_gas c with
    | (none, t1) => chargeSeq t1 cs
    | (some e, t1) => (some e, t1)

/-- The running prefix sums of the totals of a charge list, starting
from accumulated usage `acc` (one entry per charge). -/
def prefixTotals (acc : Int) : List GasCharge → List Int
  | [] => []
  | c :: cs => (acc + c.total) :: prefixTotals (acc + c.total) cs

def sumTotals : List GasCharge → Int
  | [] => 0
  | c :: cs => c.total + sumTotals cs

/-! ## Actor directory (state tree)

Modelled from the spec: the state tree implementation is not among the
source files; §6 specifies the interface the core consumes:
`lookup_id(address) -> Option(ID)`, `get_actor -> Option(ActorRecord)`,
`set_actor`, `create_actor(address, initial_state) -> ID`.  The
directory is modelled as an association map from actor ID to record,
together with the init-actor resolver state it embeds (per §4.2, the
resolver state is persisted in the reserved init actor's record; it is
held inline here). -/

structure ActorRecord where
  code : Nat
  state : Nat
  balance : Nat
  sequence : Nat
deriving DecidableEq, Repr

structure StateTree where
  actors : List (Nat × ActorRecord)
  initState : InitActor.State
deriving DecidableEq, Repr

/-- Modelled from the spec (§6, §4.2): `lookup_id` resolves an address
to a stable numeric ID through the init-actor resolver state. -/
def StateTree.lookup_id (o : StoreOracle) (st : StateTree) (a : Address) :
    Except Err (Option Nat) :=
  InitActor.State.resolve_address o st.initState a

/-- Modelled from the spec (§6): fetch an actor record by address;
ID addresses index the directory directly, other addresses are first
resolved through the map. -/
def StateTree.get_actor (st : StateTree) (a : Address) : Option ActorRecord :=
  match a with
  | .id i => st.actors.lookup i
  | _ =>
    match mapGet st.initState.address_map a.to_bytes with
    | some i => st.actors.lookup i
    | none => none

/-- Modelled from the spec (§6): write an actor record back into the
directory (used by the core only with ID addresses). -/
def StateTree.set_actor (st : StateTree) (a : Address) (r : ActorRecord) : StateTree :=
  match a with
  | .id i => { st with actors := (i, r) :: st.actors }
  | _ =>
    match mapGet st.initState.address_map a.to_bytes with
    | some i => { st with actors := (i, r) :: st.actors }
    | none => st

/-- Modelled from the spec (§4.4, §6): `create_actor(addr, state)`
allocates the new actor's ID via the resolver (so `next_id` advances
and the address is mapped) and installs the initial record under that
ID. -/
def StateTree.create_actor (o : StoreOracle) (st : StateTree) (addr : Address)
    (act : ActorRecord) : Except Err Nat × StateTree :=
  match InitActor.State.map_address_to_new_id o st.initState addr with
  | (.error e, is1) => (.error e, { st with initState := is1 })
  | (.ok idN, is1) =>
    (.ok idN, { actors := (idN, act) :: st.actors, initState := is1 })

/-- The Execution Context: aggregates the actor directory (the backing
store and environment extensions carry no state relevant to the
claims). -/
structure Machine where
  state_tree : StateTree
deriving DecidableEq, Repr

/-! ## Reserved identities and the account actor

Modelled from the spec (§6 "Reserved identities", §4.4): the system
actor's reserved numeric ID used as privileged sender, the constructor
method number, and the account actor's initial ("zero") record whose
code reference identifies the account-actor kind. -/

def SYSTEM_ACTOR_ID : Nat := 0

def METHOD_CONSTRUCTOR : Nat := 1

def ACCOUNT_ACTOR_CODE_ID : Nat := 10

def EMPTY_ARR_CID : Nat := 0

/-- Modelled from the spec: `account_actor::ZERO_STATE`, the initial
account-actor record (account-actor code, empty state, zero balance,
sequence 0). -/
def ZERO_STATE : ActorRecord :=
  { code := ACCOUNT_ACTOR_CODE_ID, state := EMPTY_ARR_CID, balance := 0, sequence := 0 }

/-- `RawBytes::serialize(&addr)`: the CBOR serialization of an address,
modelled by its byte form. -/
def serializeAddr (a : Address) : List Nat := a.to_bytes

/-! ## The call manager (`src/fvm/src/call_manager.rs`) -/

/-- `InnerCallManager`: the machine, the gas tracker and the current
effective sender. -/
structure InnerCallManager where
  machine : Machine
  gas_tracker : GasTracker
  «from» : Nat
deriving DecidableEq, Repr

/-- Modelled from the spec (§2, §4.3(d)-(g)): the per-call kernel phase
of `send_resolved` — writing `params` into a parameter block,
instantiating the module, invoking the `invoke` entry point and
reading the result block back — is carried out by external code (the
kernel, the execution engine and the syscall surface are not among the
source files).  It is modelled as an oracle that receives the sender,
recipient, method, parameters and value together with the execution
context handed over to the kernel, and produces the call's outcome
together with the context the kernel hands back. -/
structure KernelPhase where
  run : Nat → Nat → Nat → List Nat → Nat → InnerCallManager →
    Except Err (List Nat) × InnerCallManager

/-- The external collaborators of the call manager: the store failure
oracle, the module loader (`Machine::load_module`, fallible in the
source: `self.load_module(&state.code)?`), the kernel phase and the
price list's fixed actor-creation charge
(`self.context().price_list().on_create_actor()`). -/
structure Ext where
  store : StoreOracle
  loadModuleOk : Nat → Bool
  kernel : KernelPhase
  priceOnCreateActor : GasCharge

namespace InnerCallManager

/-- `CallManager::charge_gas`: delegates to the gas tracker. -/
def charge_gas (cm : InnerCallManager) (c : GasCharge) :
    Option Err × InnerCallManager :=
  match cm.gas_tracker.charge_gas c with
  | (e, t) => (e, { cm with gas_tracker := t })

/-- The balance update step of `send_resolved` (step "2. Update
balance."): when the value is non-zero, the found record's balance is
increased and written back with `set_actor`; a zero value performs no
write. -/
def with_value_transferred (cm : InnerCallManager) (toID : Nat) (state : ActorRecord)
    (value : Nat) : InnerCallManager :=
  if value = 0 then cm
  else
    { cm with machine :=
      { state_tree :=
          cm.machine.state_tree.set_actor (Address.id toID)
            { state with balance := state.balance + value } } }

/-- `CallManager::send_resolved`: looks up the recipient's record
(failing if absent), loads its code module (fallible), applies the
value transfer eagerly, then moves the context into a fresh per-call
kernel for the invocation (the engine/linker setup performs no
state-relevant work and is omitted). -/
def send_resolved (ext : Ext) (cm : InnerCallManager) (toID : Nat) (method : Nat)
    (params : List Nat) (value : Nat) : Except Err (List Nat) × InnerCallManager :=
  match cm.machine.state_tree.get_actor (Address.id toID) with
  | none => (.error (.actorDoesNotExist toID), cm)
  | some state =>
    if ext.loadModuleOk state.code then
      let cm1 := cm.with_value_transferred toID state value
      ext.kernel.run cm1.«from» toID method params value cm1
    else (.error (.loadModuleFailed state.code), cm)

/-- `CallManager::send_explicit`: saves the current sender, overrides
it with `from`, performs the resolved send, and restores the saved
sender afterwards whether the send succeeded or failed. -/
def send_explicit (ext : Ext) (cm : InnerCallManager) (fr : Nat) (toID : Nat)
    (method : Nat) (params : List Nat) (value : Nat) :
    Except Err (List Nat) × InnerCallManager :=
  let prev_from := cm.«from»
  let cm1 := { cm with «from» := fr }
  let res := send_resolved ext cm1 toID method params value
  (res.1, { res.2 with «from» := prev_from })

/-- `CallManager::create_account_actor`: charges the fixed
actor-creation gas, rejects the reserved BLS zero address, creates the
account actor's record in the state tree, and invokes its constructor
via `send_explicit` from the system actor with zero value and the
original address as the parameter. -/
def create_account_actor (ext : Ext) (cm : InnerCallManager) (addr : Address) :
    Except Err Nat × InnerCallManager :=
  match charge_gas cm ext.priceOnCreateActor with
  | (some e, cm1) => (.error e, cm1)
  | (none, cm1) =>
    if addr.is_bls_zero_address then
      (.error (.illegalArgument "cannot create the bls zero address actor"), cm1)
    else
      match StateTree.create_actor ext.store cm1.machine.state_tree addr ZERO_STATE with
      | (.error e, st1) => (.error e, { cm1 with machine := { state_tree := st1 } })
      | (.ok idN, st1) =>
        let cm2 := { cm1 with machine := { state_tree := st1 } }
        let params := serializeAddr addr
        let res := send_explicit ext cm2 SYSTEM_ACTOR_ID idN METHOD_CONSTRUCTOR params 0
        match res.1 with
        | .error e => (.error e, res.2)
        | .ok _ => (.ok idN, res.2)

/-- `CallManager::send`: resolves the recipient via the state tree;
an unresolved key-style (BLS or Secp256k1) recipient triggers
account-actor auto-creation, any other unresolved recipient fails
with an actor-not-found error. -/
def send (ext : Ext) (cm : InnerCallManager) (toAddr : Address) (method : Nat)
    (params : List Nat) (value : Nat) : Except Err (List Nat) × InnerCallManager :=
  match cm.machine.state_tree.lookup_id ext.store toAddr with
  | .error e => (.error e, cm)
  | .ok (some idN) => send_resolved ext cm idN method params value
  | .ok none =>
    match toAddr.protocol with
    | .BLS | .Secp256k1 =>
      (match create_account_actor ext cm toAddr with
       | (.error e, cm1) => (.error e, cm1)
       | (.ok idN, cm1) => send_resolved ext cm1 idN method params value)
    | _ => (.error (.actorNotFound toAddr), cm)

end InnerCallManager

/-! ## The poisoning wrapper (`CallManager(Option<InnerCallManager>)`)

`CallManager` is `#[repr(transparent)] Option<InnerCallManager>`; its
`Deref`/`DerefMut` `expect("call manager is poisoned")`, so any access
through a `None` is a panic, never a `Result`.  `map_mut` moves the
inner value out (leaving `CallManager(None)` in the slot for the span
of the closure) and stores the closure's returned manager back.  A
panic outcome is modelled as the `none` of an outer `Option`. -/

abbrev CallManager := Option InnerCallManager

namespace CallManager

/-- The poisoned state: the placeholder `CallManager(None)` installed
by `map_mut` while the context is inside a per-call kernel. -/
def poisoned : CallManager := none

/-- `CallManager::charge_gas` through the deref: panics when poisoned. -/
def charge_gas (cm : CallManager) (c : GasCharge) :
    Option (Option Err × CallManager) :=
  match cm with
  | none => none
  | some inner =>
    match inner.charge_gas c with
    | (e, inner1) => some (e, some inner1)

/-- `CallManager::gas_available` through the deref. -/
def gas_available (cm : CallManager) : Option Int :=
  match cm with
  | none => none
  | some inner => some inner.gas_tracker.gas_available

/-- `CallManager::gas_used` through the deref. -/
def gas_used (cm : CallManager) : Option Int :=
  match cm with
  | none => none
  | some inner => some inner.gas_tracker.gas_used

/-- `CallManager::send` through the deref. -/
def send (ext : Ext) (cm : CallManager) (toAddr : Address) (method : Nat)
    (params : List Nat) (value : Nat) :
    Option (Except Err (List Nat) × CallManager) :=
  match cm with
  | none => none
  | some inner =>
    match inner.send ext toAddr method params value with
    | (r, inner1) => some (r, some inner1)

/-- `CallManager::send_explicit` through the deref. -/
def send_explicit (ext : Ext) (cm : CallManager) (fr : Nat) (toID : Nat)
    (method : Nat) (params : List Nat) (value : Nat) :
    Option (Except Err (List Nat) × CallManager) :=
  match cm with
  | none => none
  | some inner =>
    match inner.send_explicit ext fr toID method params value with
    | (r, inner1) => some (r, some inner1)

/-- `CallManager::finish`: reads the gas used (clamped at zero), then
takes the inner value (`expect("call manager is poisoned")`) and
returns the machine. -/
def finish (cm : CallManager) : Option (Int × Machine) :=
  match cm with
  | none => none
  | some inner => some (max inner.gas_tracker.gas_used 0, inner.machine)

end CallManager

/-! ## The SDK-side send (`src/sdk/src/send.rs`)

The SDK runs inside the sandbox and reaches the machine through raw
syscalls (`sys::ipld::create`, `sys::send::send`, `sys::ipld::stat`,
`sys::ipld::read`), modelled as oracles.  A `TokenAmount` is a big
integer; `iter_u64_digits` yields the little-endian 64-bit digits of
its magnitude (no digits at all for zero), modelled by the digit list
itself.  The syscalls actually issued are recorded in order; a panic
(`unwrap` on a missing digit, the `assert_eq` on the read length, the
`expect` on receipt decoding) is modelled as the `none` of the outer
`Option`. -/

namespace Sdk

def DAG_CBOR : Nat := 113

inductive ExitCode where
  | ErrIllegalArgument
  | other (n : Nat)
deriving DecidableEq, Repr

structure Receipt where
  exit_code : Nat
  return_data : List Nat
  gas_used : Int
deriving DecidableEq, Repr

inductive SysCallEvent where
  | ipldCreate (codec : Nat) (data : List Nat)
  | sendCall (recipient : List Nat) (method : Nat) (paramsId : Nat) (hi lo : Nat)
  | ipldStat (idN : Nat)
  | ipldRead (idN : Nat) (offset len : Nat)
deriving DecidableEq, Repr

/-- Oracles for the raw syscall surface: each returns either an error
exit code or its result. -/
structure SysEnv where
  createRes : Nat → List Nat → Except ExitCode Nat
  sendRes : List Nat → Nat → Nat → Nat → Nat → Except ExitCode Nat
  statRes : Nat → Except ExitCode (Nat × Nat)
  readRes : Nat → Nat → Nat → Except ExitCode (Nat × List Nat)
  decodeReceipt : List Nat → Option Receipt

/-- `sdk::send::send`: extracts the low and high 64-bit digits of the
value's magnitude (panicking if there is no digit at all), rejects a
third digit with `ErrIllegalArgument` before issuing any syscall, then
creates the parameter block, performs the send syscall, and reads the
receipt back. -/
def send (env : SysEnv) (toAddr : Address) (method : Nat) (params : List Nat)
    (valueDigits : List Nat) :
    Option (Except ExitCode Receipt × List SysCallEvent) :=
  let recipient := toAddr.to_bytes
  match valueDigits with
  | [] => none
  | lo :: rest =>
    let hi := rest.headD 0
    if 2 ≤ rest.length then some (.error .ErrIllegalArgument, [])
    else
      let ev1 := SysCallEvent.ipldCreate DAG_CBOR params
      match env.createRes DAG_CBOR params with
      | .error e => some (.error e, [ev1])
      | .ok params_id =>
        let ev2 := SysCallEvent.sendCall recipient method params_id hi lo
        match env.sendRes recipient method params_id hi lo with
        | .error e => some (.error e, [ev1, ev2])
        | .ok idN =>
          let ev3 := SysCallEvent.ipldStat idN
          match env.statRes idN with
          | .error e => some (.error e, [ev1, ev2, ev3])
          | .ok (_, len) =>
            let ev4 := SysCallEvent.ipldRead idN 0 len
            match env.readRes idN 0 len with
            | .error e => some (.error e, [ev1, ev2, ev3, ev4])
            | .ok (read, bytes) =>
              if read = len then
                match env.decodeReceipt bytes with
                | some r => some (.ok r, [ev1, ev2, ev3, ev4])
                | none => none
              else none

end Sdk

/-! ## Concrete fixtures and statement abbreviations -/

/-- A concrete actor record used in the concrete instances below. -/
def recW : ActorRecord := { code := 7, state := 0, balance := 10, sequence := 0 }

/-- A concrete directory holding only actor 5. -/
def treeW : StateTree := { actors := [(5, recW)], initState := InitActor.State.new "w" }

/-- A concrete live inner call manager. -/
def innerW : InnerCallManager :=
  { machine := { state_tree := treeW }, gas_tracker := GasTracker.new 1000 0,
    «from» := 100 }

/-- A kernel oracle returning success and handing the context back
unchanged. -/
def kernelOkW : KernelPhase := ⟨fun _ _ _ _ _ i => (.ok [], i)⟩

/-- Externals with a healthy store and loader. -/
def extW : Ext :=
  { store := okStore, loadModuleOk := fun _ => true, kernel := kernelOkW,
    priceOnCreateActor := ⟨1, 0⟩ }

/-- Externals under which every code module fails to load. -/
def extLoadFail : Ext :=
  { store := okStore, loadModuleOk := fun _ => false, kernel := kernelOkW,
    priceOnCreateActor := ⟨1, 0⟩ }

/-- The constructor invocation performed after account auto-creation:
`send_explicit` from the system actor with zero value and the
serialized original address as the parameter. -/
def constructorCall (ext : Ext) (cm2 : InnerCallManager) (idN : Nat) (addr : Address) :
    Except Err (List Nat) × InnerCallManager :=
  InnerCallManager.send_explicit ext cm2 SYSTEM_ACTOR_ID idN METHOD_CONSTRUCTOR
    (serializeAddr addr) 0

/-- Oracles for the SDK syscall surface in which every syscall
succeeds trivially. -/
def envW : Sdk.SysEnv :=
  { createRes := fun _ _ => .ok 1, sendRes := fun _ _ _ _ _ => .ok 2,
    statRes := fun _ => .ok (0, 0), readRes := fun _ _ _ => .ok (0, []),
    decodeReceipt := fun _ => some { exit_code := 0, return_data := [], gas_used := 0 } }

/-! ## Helper lemmas -/

theorem mapGet_mapSet_same (m : AddrMap) (k : List Nat) (v : Nat) :
    mapGet (mapSet m k v) k = some v := by
  simp [mapGet, mapSet, List.lookup]

theorem chargeSeq_ok (cs : List GasCharge) : ∀ t : GasTracker,
    (∀ p ∈ prefixTotals t.gas_used cs, p ≤ t.gas_limit) →
    chargeSeq t cs = (none, { t with gas_used := t.gas_used + sumTotals cs }) := by
  induction cs with
  | nil =>
    intro t _
    obtain ⟨L, g⟩ := t
    simp [chargeSeq, sumTotals]
  | cons c cs ih =>
    intro t h
    have hhead : t.gas_used + c.total ≤ t.gas_limit := h _ (by simp [prefixTotals])
    have htail : ∀ p ∈ prefixTotals (t.gas_used + c.total) cs, p ≤ t.gas_limit := by
      intro p hp
      exact h p (by simp [prefixTotals, hp])
    have step : t.charge_gas c = (none, { t with gas_used := t.gas_used + c.total }) := by
      simp [GasTracker.charge_gas, not_lt.mpr hhead]
    have ih1 := ih { t with gas_used := t.gas_used + c.total } htail
    obtain ⟨L, g⟩ := t
    simp only [chargeSeq, step, ih1, sumTotals]
    rw [add_assoc]

theorem chargeSeq_none_prefix_le (cs : List GasCharge) : ∀ (t t' : GasTracker),
    chargeSeq t cs = (none, t') →
    ∀ p ∈ prefixTotals t.gas_used cs, p ≤ t.gas_limit := by
  induction cs with
  | nil => intro t t' _ p hp; simp [prefixTotals] at hp
  | cons c cs ih =>
    intro t t' hrun p hp
    by_cases hover : t.gas_limit < t.gas_used + c.total
    · exfalso
      simp [chargeSeq, GasTracker.charge_gas, hover] at hrun
    · have step : t.charge_gas c = (none, { t with gas_used := t.gas_used + c.total }) := by
        simp [GasTracker.charge_gas, hover]
      rw [chargeSeq, step] at hrun
      simp only [prefixTotals, List.mem_cons] at hp
      rcases hp with hp | hp
      · omega
      · exact ih { t with gas_used := t.gas_used + c.total } t' hrun p hp

theorem chargeSeq_first_failure (pre : List GasCharge) : ∀ (t : GasTracker)
    (c : GasCharge) (post : List GasCharge),
    (∀ p ∈ prefixTotals t.gas_used pre, p ≤ t.gas_limit) →
    t.gas_limit < t.gas_used + sumTotals pre + c.total →
    chargeSeq t (pre ++ c :: post)
      = (some .outOfGas, { t with gas_used := t.gas_used + sumTotals pre }) := by
  induction pre with
  | nil =>
    intro t c post _ hover
    have hover1 : t.gas_limit < t.gas_used + c.total := by
      simp [sumTotals] at hover; omega
    obtain ⟨L, g⟩ := t
    simp_all [chargeSeq, GasTracker.charge_gas, sumTotals]
  | cons c0 pre ih =>
    intro t c post h hover
    have hhead : t.gas_used + c0.total ≤ t.gas_limit := h _ (by simp [prefixTotals])
    have step : t.charge_gas c0 = (none, { t with gas_used := t.gas_used + c0.total }) := by
      simp [GasTracker.charge_gas, not_lt.mpr hhead]
    have htail : ∀ p ∈ prefixTotals (t.gas_used + c0.total) pre, p ≤ t.gas_limit := by
      intro p hp
      exact h p (by simp [prefixTotals, hp])
    have hover1 : t.gas_limit < (t.gas_used + c0.total) + sumTotals pre + c.total := by
      simp [sumTotals] at hover; omega
    have ih1 := ih { t with gas_used := t.gas_used + c0.total } c post htail hover1
    obtain ⟨L, g⟩ := t
    simp only [List.cons_append, chargeSeq, step, sumTotals]
    rw [← add_assoc]
    exact ih1

theorem sumTotals_mem_prefixTotals (cs : List GasCharge) : ∀ acc : Int,
    cs ≠ [] → acc + sumTotals cs ∈ prefixTotals acc cs := by
  induction cs with
  | nil => intro acc h; exact absurd rfl h
  | cons c cs ih =>
    intro acc _
    rcases hcs : cs with _ | ⟨c1, cs1⟩
    · simp [prefixTotals, sumTotals]
    · have := ih (acc + c.total) (by simp [hcs])
      rw [← hcs]
      simp only [prefixTotals, sumTotals, List.mem_cons]
      right
      have harr : acc + (c.total + sumTotals cs) = acc + c.total + sumTotals cs := by ring
      rw [harr]
      exact this

theorem alloc_ok (s : InitActor.State) (a : Address) :
    InitActor.State.map_address_to_new_id okStore s a
      = (.ok s.next_id, { s with
          next_id := s.next_id + 1
          address_map := mapSet s.address_map a.to_bytes s.next_id }) := rfl

theorem resolve_after_set (s : InitActor.State) (a : Address) (ha : a.isID = false)
    (v : Nat) :
    InitActor.State.resolve_address okStore
      { s with address_map := mapSet s.address_map a.to_bytes v } a = .ok (some v) := by
  cases a with
  | id i => simp [Address.isID] at ha
  | secp256k1 k =>
    show Except.ok (mapGet (mapSet s.address_map _ v) _) = _
    rw [mapGet_mapSet_same]
  | actor h =>
    show Except.ok (mapGet (mapSet s.address_map _ v) _) = _
    rw [mapGet_mapSet_same]
  | bls k =>
    show Except.ok (mapGet (mapSet s.address_map _ v) _) = _
    rw [mapGet_mapSet_same]

theorem allocRun_next (as : List Address) : ∀ s : InitActor.State,
    (InitActor.allocRun s as).2.next_id = s.next_id + as.length := by
  induction as with
  | nil => intro s; simp [InitActor.allocRun]
  | cons a as ih =>
    intro s
    simp only [InitActor.allocRun, alloc_ok]
    rw [ih]
    simp
    omega

theorem allocRun_mem_bounds (as : List Address) : ∀ (s : InitActor.State) (idN : Nat),
    idN ∈ (InitActor.allocRun s as).1 →
    s.next_id ≤ idN ∧ idN < s.next_id + as.length := by
  induction as with
  | nil => intro s idN h; simp [InitActor.allocRun] at h
  | cons a as ih =>
    intro s idN h
    simp only [InitActor.allocRun, alloc_ok, List.mem_cons] at h
    rcases h with h | h
    · subst h; simp
    · have := ih _ idN h
      simp at this ⊢
      omega

theorem allocRun_pairwise (as : List Address) : ∀ s : InitActor.State,
    ((InitActor.allocRun s as).1).Pairwise (· < ·) := by
  induction as with
  | nil => intro s; simp [InitActor.allocRun]
  | cons a as ih =>
    intro s
    simp only [InitActor.allocRun, alloc_ok]
    refine List.Pairwise.cons ?_ (ih _)
    intro b hb
    have := (allocRun_mem_bounds as _ b hb).1
    simp at this
    omega

/-! ## Claim theorems -/

/-- C2: for a gas tracker constructed with `gas_limit = L`, a sequence
of `charge_gas` calls with amounts `c_1..c_n` succeeds iff every prefix
sum of the amounts is ≤ L; the first charge whose prefix sum exceeds L
fails with `OutOfGas` and leaves `gas_used` unchanged, so `gas_used`
reflects only the charges that succeeded before it and
`gas_used ≤ gas_limit` holds after every successful charge (the
success case yields `gas_used = sum ≤ L`, applicable to every prefix
since the charge list is universally quantified). -/
theorem charge_gas_prefix_sum_contract (L : Int) (cs : List GasCharge) :
    ((chargeSeq (GasTracker.new L 0) cs).1 = none ↔
      ∀ p ∈ prefixTotals 0 cs, p ≤ L) ∧
    ((∀ p ∈ prefixTotals 0 cs, p ≤ L) →
      chargeSeq (GasTracker.new L 0) cs = (none, GasTracker.new L (sumTotals cs)) ∧
      (cs ≠ [] → sumTotals cs ≤ L)) ∧
    (∀ pre c post, cs = pre ++ c :: post →
      (∀ p ∈ prefixTotals 0 pre, p ≤ L) → L < sumTotals pre + c.total →
      chargeSeq (GasTracker.new L 0) cs
        = (some .outOfGas, GasTracker.new L (sumTotals pre))) := by
  have hok : (∀ p ∈ prefixTotals 0 cs, p ≤ L) →
      chargeSeq (GasTracker.new L 0) cs = (none, GasTracker.new L (sumTotals cs)) := by
    intro h
    have := chargeSeq_ok cs (GasTracker.new L 0) (by simpa [GasTracker.new] using h)
    simpa [GasTracker.new] using this
  refine ⟨⟨?_, fun h => by rw [hok h]⟩, fun h => ⟨hok h, fun hne => ?_⟩, ?_⟩
  · intro h1
    rcases hrun : chargeSeq (GasTracker.new L 0) cs with ⟨e, t1⟩
    rw [hrun] at h1
    simp at h1
    subst h1
    have := chargeSeq_none_prefix_le cs (GasTracker.new L 0) t1 hrun
    simpa [GasTracker.new] using this
  · have hmem := sumTotals_mem_prefixTotals cs 0 hne
    rw [zero_add] at hmem
    exact h _ hmem
  · intro pre c post hsplit hpre hover
    subst hsplit
    have := chargeSeq_first_failure pre (GasTracker.new L 0) c post
      (by simpa [GasTracker.new] using hpre)
      (by simpa [GasTracker.new] using hover)
    simpa [GasTracker.new] using this

/-- Witness for C2 at `L = 10`, charges `[3, 4, 5]`: the prefix sums
are `3, 7, 12`, so the third charge fails with `OutOfGas` and the
tracker is left with `gas_used = 7`. -/
theorem charge_gas_prefix_sum_contract_witness :
    chargeSeq (GasTracker.new 10 0) [⟨3, 0⟩, ⟨4, 0⟩, ⟨5, 0⟩]
      = (some .outOfGas, GasTracker.new 10 7) := by
  have h := (charge_gas_prefix_sum_contract 10 [⟨3, 0⟩, ⟨4, 0⟩, ⟨5, 0⟩]).2.2
    [⟨3, 0⟩, ⟨4, 0⟩] ⟨5, 0⟩ [] rfl (by decide) (by decide)
  simpa [sumTotals, GasCharge.total] using h

/-- C5: for every non-ID address `a`, `map_address_to_new_id` returns
the current `next_id` and increments it; afterwards `resolve_address`
returns the allocated id; over any allocation sequence the returned
ids are strictly increasing (hence pairwise distinct and each greater
than every previously allocated one), all strictly below the final
`next_id`, which never decreases; calling twice on the same address
yields two distinct ids. -/
theorem map_address_to_new_id_allocation_contract (s : InitActor.State) (a : Address)
    (as : List Address) (ha : a.isID = false) :
    ((InitActor.State.map_address_to_new_id okStore s a).1 = .ok s.next_id) ∧
    ((InitActor.State.map_address_to_new_id okStore s a).2.next_id = s.next_id + 1) ∧
    (InitActor.State.resolve_address okStore
        (InitActor.State.map_address_to_new_id okStore s a).2 a = .ok (some s.next_id)) ∧
    (((InitActor.allocRun s as).1).Pairwise (· < ·)) ∧
    (((InitActor.allocRun s as).1).Nodup) ∧
    (∀ idN ∈ (InitActor.allocRun s as).1, idN < (InitActor.allocRun s as).2.next_id) ∧
    ((InitActor.allocRun s as).2.next_id = s.next_id + as.length) ∧
    ((InitActor.State.map_address_to_new_id okStore
        (InitActor.State.map_address_to_new_id okStore s a).2 a).1 = .ok (s.next_id + 1)) ∧
    (s.next_id ≠ s.next_id + 1) := by
  refine ⟨by rw [alloc_ok], by rw [alloc_ok], ?_, allocRun_pairwise as s, ?_, ?_,
    allocRun_next as s, by rw [alloc_ok, alloc_ok], by omega⟩
  · rw [alloc_ok]
    exact resolve_after_set { s with next_id := s.next_id + 1 } a ha s.next_id
  · exact (allocRun_pairwise as s).imp (fun h => Nat.ne_of_lt h)
  · intro idN hmem
    have := (allocRun_mem_bounds as s idN hmem).2
    rw [allocRun_next as s]
    exact this

/-- Witness for C5 at a fresh state and the Secp256k1 address `[1]`,
with a two-element allocation sequence. -/
theorem map_address_to_new_id_allocation_contract_witness :
    ((InitActor.State.map_address_to_new_id okStore (InitActor.State.new "w")
        (.secp256k1 [1])).1 = .ok 100) ∧
    (InitActor.State.resolve_address okStore
        (InitActor.State.map_address_to_new_id okStore (InitActor.State.new "w")
          (.secp256k1 [1])).2 (.secp256k1 [1]) = .ok (some 100)) ∧
    ((InitActor.allocRun (InitActor.State.new "w")
        [.secp256k1 [1], .secp256k1 [1]]).1).Nodup := by
  have h := map_address_to_new_id_allocation_contract (InitActor.State.new "w")
    (.secp256k1 [1]) [.secp256k1 [1], .secp256k1 [1]] rfl
  exact ⟨h.1, h.2.2.1, h.2.2.2.2.1⟩

/-- C6: `resolve_address` returns an ID payload unchanged independent
of the map (and of the store); otherwise it looks the serialized bytes
up in the map, giving `some` on a hit and `none` on a miss; it errors
only on underlying-store failure. -/
theorem resolve_address_contract (s : InitActor.State) (o : StoreOracle)
    (a : Address) (i : Nat) :
    (InitActor.State.resolve_address o s (.id i) = .ok (some i)) ∧
    (a.isID = false → o.openErr = false → o.getErr = false →
      InitActor.State.resolve_address o s a
        = .ok (mapGet s.address_map a.to_bytes)) ∧
    (∀ e, InitActor.State.resolve_address o s a = .error e →
      e = .storeFailure ∧ (o.openErr = true ∨ o.getErr = true) ∧ a.isID = false) := by
  refine ⟨rfl, ?_, ?_⟩
  · intro ha hopen hget
    cases a with
    | id i => simp [Address.isID] at ha
    | secp256k1 k => simp [InitActor.State.resolve_address, hopen, hget]
    | actor h => simp [InitActor.State.resolve_address, hopen, hget]
    | bls k => simp [InitActor.State.resolve_address, hopen, hget]
  · intro e herr
    cases a with
    | id i => simp [InitActor.State.resolve_address] at herr
    | secp256k1 k =>
      cases ho : o.openErr <;> cases hg : o.getErr <;>
        simp_all [InitActor.State.resolve_address, Address.isID]
    | actor h =>
      cases ho : o.openErr <;> cases hg : o.getErr <;>
        simp_all [InitActor.State.resolve_address, Address.isID]
    | bls k =>
      cases ho : o.openErr <;> cases hg : o.getErr <;>
        simp_all [InitActor.State.resolve_address, Address.isID]

/-- Witness for C6: an ID address passes through even under a failing
store; a non-ID address misses the empty map under a healthy store. -/
theorem resolve_address_contract_witness :
    (InitActor.State.resolve_address ⟨true, true, true, true⟩
        (InitActor.State.new "w") (.id 7) = .ok (some 7)) ∧
    (InitActor.State.resolve_address okStore (InitActor.State.new "w")
        (.bls [5]) = .ok none) := by
  have h1 := (resolve_address_contract (InitActor.State.new "w")
    ⟨true, true, true, true⟩ (.bls [5]) 7).1
  have h2 := (resolve_address_contract (InitActor.State.new "w") okStore
    (.bls [5]) 7).2.1 rfl rfl rfl
  exact ⟨h1, by simpa [InitActor.State.new, mapGet] using h2⟩

/-- C9: `map_address_to_new_id` is not atomic under failure: whenever
opening, updating or flushing the map fails, the error is reported but
the returned state keeps the incremented `next_id` while the map root
is unchanged, so the allocated id is skipped and mapped to no
address. -/
theorem map_address_to_new_id_failure_nonatomic (o : StoreOracle)
    (s : InitActor.State) (a : Address)
    (h : o.openErr = true ∨ o.setErr = true ∨ o.flushErr = true) :
    (InitActor.State.map_address_to_new_id o s a).1 = .error .storeFailure ∧
    (InitActor.State.map_address_to_new_id o s a).2
      = { s with next_id := s.next_id + 1 } := by
  cases ho : o.openErr <;> cases hs : o.setErr <;> cases hf : o.flushErr <;>
    simp_all [InitActor.State.map_address_to_new_id]

/-- Witness for C9: a flush failure on a fresh state reports a store
error yet leaves `next_id` bumped to 101 with an unchanged empty map. -/
theorem map_address_to_new_id_failure_nonatomic_witness :
    (InitActor.State.map_address_to_new_id ⟨false, false, false, true⟩
        (InitActor.State.new "w") (.secp256k1 [1])).1 = .error .storeFailure ∧
    (InitActor.State.map_address_to_new_id ⟨false, false, false, true⟩
        (InitActor.State.new "w") (.secp256k1 [1])).2
      = { InitActor.State.new "w" with next_id := 101 } := by
  have h := map_address_to_new_id_failure_nonatomic ⟨false, false, false, true⟩
    (InitActor.State.new "w") (.secp256k1 [1]) (Or.inr (Or.inr rfl))
  simpa [InitActor.State.new] using h

/-! ## Call-manager theorems and concrete fixtures -/

theorem get_actor_set_actor_same (st : StateTree) (i : Nat) (r : ActorRecord) :
    (st.set_actor (.id i) r).get_actor (.id i) = some r := by
  simp [StateTree.set_actor, StateTree.get_actor, List.lookup]

theorem send_resolved_runs_kernel (ext : Ext) (cm : InnerCallManager)
    (toID method : Nat) (params : List Nat) (value : Nat) (state : ActorRecord)
    (hfound : cm.machine.state_tree.get_actor (.id toID) = some state)
    (hload : ext.loadModuleOk state.code = true) :
    InnerCallManager.send_resolved ext cm toID method params value
      = ext.kernel.run (cm.with_value_transferred toID state value).«from» toID method
          params value (cm.with_value_transferred toID state value) := by
  simp [InnerCallManager.send_resolved, hfound, hload]

/-- C1 counterexample: actor 5 is present in the directory (it is
found), yet when its code module fails to load, `send_resolved`
returns with the directory untouched — the recipient's balance is not
increased by the value 3 and nothing is written back, refuting the
claim's "unconditionally once the actor is found". -/
theorem send_resolved_eager_balance_counterexample :
    (treeW.get_actor (.id 5) = some recW) ∧
    (InnerCallManager.send_resolved extLoadFail innerW 5 0 [] 3
      = (.error (.loadModuleFailed 7), innerW)) ∧
    ((InnerCallManager.send_resolved extLoadFail innerW 5 0 [] 3).2.machine.state_tree.get_actor
        (.id 5) = some recW) ∧
    (recW.balance = 10 ∧ ¬ (10 : Nat) + 3 = 10) := by
  exact ⟨rfl, rfl, rfl, rfl, by decide⟩

/-- C1 (amended): in `send_resolved`, once the recipient's record is
found and its code module loads successfully, the value transfer is
applied to the recipient's balance eagerly, before the kernel
invocation (a zero value skips the write, leaving the directory
unchanged, which coincides with crediting zero); and the call's entire
outcome, final context included, is the kernel phase's outcome on the
already-credited context, so the core rolls nothing back when the
invocation fails. -/
theorem send_resolved_eager_balance (ext : Ext) (cm : InnerCallManager)
    (toID method : Nat) (params : List Nat) (value : Nat) (state : ActorRecord)
    (hfound : cm.machine.state_tree.get_actor (.id toID) = some state)
    (hload : ext.loadModuleOk state.code = true) :
    ((cm.with_value_transferred toID state value).machine.state_tree.get_actor (.id toID)
        = some { state with balance := state.balance + value }) ∧
    (InnerCallManager.send_resolved ext cm toID method params value
      = ext.kernel.run (cm.with_value_transferred toID state value).«from» toID method
          params value (cm.with_value_transferred toID state value)) := by
  constructor
  · by_cases hv : value = 0
    · subst hv
      cases state
      simpa [InnerCallManager.with_value_transferred] using hfound
    · simp [InnerCallManager.with_value_transferred, hv, get_actor_set_actor_same]
  · exact send_resolved_runs_kernel ext cm toID method params value state hfound hload

/-- Witness for the amended C1 at actor 5 with value 3: the credited
record is visible before the kernel phase, whose outcome is the whole
result. -/
theorem send_resolved_eager_balance_witness :
    ((innerW.with_value_transferred 5 recW 3).machine.state_tree.get_actor (.id 5)
        = some { recW with balance := recW.balance + 3 }) ∧
    (InnerCallManager.send_resolved extW innerW 5 0 [] 3
      = extW.kernel.run (innerW.with_value_transferred 5 recW 3).«from» 5 0 [] 3
          (innerW.with_value_transferred 5 recW 3)) :=
  send_resolved_eager_balance extW innerW 5 0 [] 3 recW rfl rfl

/-- C3: every public call-manager operation begun on a Live (non-
poisoned) manager completes without fault and ends with a Live
manager; on the poisoned manager (the `CallManager(None)` placeholder
held while the context has been moved into a per-call kernel) every
one of them is a programming-error fault (`none`), never a recoverable
error result; and once `send_resolved` reaches the kernel phase the
resulting manager is exactly the context the kernel hands back (the
un-poisoning handoff). -/
theorem call_manager_ownership_poison_protocol (ext : Ext) (inner : InnerCallManager)
    (c : GasCharge) (a : Address) (fr toID method : Nat) (params : List Nat)
    (value : Nat) :
    (∃ e inner1, CallManager.charge_gas (some inner) c = some (e, some inner1)) ∧
    (CallManager.gas_available (some inner) = some inner.gas_tracker.gas_available) ∧
    (CallManager.gas_used (some inner) = some inner.gas_tracker.gas_used) ∧
    (∃ r inner1, CallManager.send ext (some inner) a method params value
        = some (r, some inner1)) ∧
    (∃ r inner1, CallManager.send_explicit ext (some inner) fr toID method params value
        = some (r, some inner1)) ∧
    (CallManager.finish (some inner)
        = some (max inner.gas_tracker.gas_used 0, inner.machine)) ∧
    (CallManager.charge_gas CallManager.poisoned c = none) ∧
    (CallManager.gas_available CallManager.poisoned = none) ∧
    (CallManager.gas_used CallManager.poisoned = none) ∧
    (CallManager.send ext CallManager.poisoned a method params value = none) ∧
    (CallManager.send_explicit ext CallManager.poisoned fr toID method params value
        = none) ∧
    (CallManager.finish CallManager.poisoned = none) ∧
    (∀ state, inner.machine.state_tree.get_actor (.id toID) = some state →
      ext.loadModuleOk state.code = true →
      InnerCallManager.send_resolved ext inner toID method params value
        = ext.kernel.run (inner.with_value_transferred toID state value).«from» toID
            method params value (inner.with_value_transferred toID state value)) := by
  refine ⟨⟨(inner.charge_gas c).1, (inner.charge_gas c).2, rfl⟩, rfl, rfl,
    ⟨(inner.send ext a method params value).1,
      (inner.send ext a method params value).2, rfl⟩,
    ⟨(inner.send_explicit ext fr toID method params value).1,
      (inner.send_explicit ext fr toID method params value).2, rfl⟩,
    rfl, rfl, rfl, rfl, rfl, rfl, rfl, ?_⟩
  intro state hfound hload
  exact send_resolved_runs_kernel ext inner toID method params value state hfound hload

/-- Witness for C3: concrete Live accesses succeed, poisoned accesses
fault, and the concrete kernel handoff equation holds. -/
theorem call_manager_ownership_poison_protocol_witness :
    (CallManager.gas_used (some innerW) = some 0) ∧
    (CallManager.gas_used CallManager.poisoned = none) ∧
    (InnerCallManager.send_resolved extW innerW 5 0 [] 3
      = extW.kernel.run (innerW.with_value_transferred 5 recW 3).«from» 5 0 [] 3
          (innerW.with_value_transferred 5 recW 3)) := by
  have h := call_manager_ownership_poison_protocol extW innerW ⟨1, 0⟩ (.id 5) 0 5 0 [] 3
  refine ⟨h.2.2.1, h.2.2.2.2.2.2.2.2.1, ?_⟩
  exact h.2.2.2.2.2.2.2.2.2.2.2.2 recW rfl rfl

/-- C4: `send` resolution: an ID or already-mapped recipient proceeds
directly to the resolved-address path with that id; an unresolved
key-style recipient goes through account auto-creation and, when that
succeeds, proceeds with the id it allocated (its failure is the send's
failure); an unresolved non-key recipient fails with actor-not-found
and the manager — hence the directory — is returned untouched. -/
theorem send_resolution_contract (ext : Ext) (cm : InnerCallManager) (a : Address)
    (i method : Nat) (params : List Nat) (value : Nat) :
    (InnerCallManager.send ext cm (.id i) method params value
      = InnerCallManager.send_resolved ext cm i method params value) ∧
    (a.isID = false → ext.store.openErr = false → ext.store.getErr = false →
      mapGet cm.machine.state_tree.initState.address_map a.to_bytes = some i →
      InnerCallManager.send ext cm a method params value
        = InnerCallManager.send_resolved ext cm i method params value) ∧
    ((a.protocol = .BLS ∨ a.protocol = .Secp256k1) →
      ext.store.openErr = false → ext.store.getErr = false →
      mapGet cm.machine.state_tree.initState.address_map a.to_bytes = none →
      (∀ e cm1, InnerCallManager.create_account_actor ext cm a = (.error e, cm1) →
        InnerCallManager.send ext cm a method params value = (.error e, cm1)) ∧
      (∀ idN cm1, InnerCallManager.create_account_actor ext cm a = (.ok idN, cm1) →
        InnerCallManager.send ext cm a method params value
          = InnerCallManager.send_resolved ext cm1 idN method params value)) ∧
    (a.protocol ≠ .ID → a.protocol ≠ .BLS → a.protocol ≠ .Secp256k1 →
      ext.store.openErr = false → ext.store.getErr = false →
      mapGet cm.machine.state_tree.initState.address_map a.to_bytes = none →
      InnerCallManager.send ext cm a method params value
        = (.error (.actorNotFound a), cm)) := by
  refine ⟨rfl, ?_, ?_, ?_⟩
  · intro ha hopen hget hmap
    cases a with
    | id j => simp [Address.isID] at ha
    | secp256k1 k =>
      simp [InnerCallManager.send, StateTree.lookup_id,
        InitActor.State.resolve_address, hopen, hget, hmap]
    | actor hsh =>
      simp [InnerCallManager.send, StateTree.lookup_id,
        InitActor.State.resolve_address, hopen, hget, hmap]
    | bls k =>
      simp [InnerCallManager.send, StateTree.lookup_id,
        InitActor.State.resolve_address, hopen, hget, hmap]
  · intro hkey hopen hget hmap
    constructor
    · intro e cm1 hca
      cases a with
      | id j => simp [Address.protocol] at hkey
      | actor hsh => simp [Address.protocol] at hkey
      | secp256k1 k =>
        simp [InnerCallManager.send, StateTree.lookup_id,
          InitActor.State.resolve_address, hopen, hget, hmap, Address.protocol, hca]
      | bls k =>
        simp [InnerCallManager.send, StateTree.lookup_id,
          InitActor.State.resolve_address, hopen, hget, hmap, Address.protocol, hca]
    · intro idN cm1 hca
      cases a with
      | id j => simp [Address.protocol] at hkey
      | actor hsh => simp [Address.protocol] at hkey
      | secp256k1 k =>
        simp [InnerCallManager.send, StateTree.lookup_id,
          InitActor.State.resolve_address, hopen, hget, hmap, Address.protocol, hca]
      | bls k =>
        simp [InnerCallManager.send, StateTree.lookup_id,
          InitActor.State.resolve_address, hopen, hget, hmap, Address.protocol, hca]
  · intro hnid hnbls hnsecp hopen hget hmap
    cases a with
    | id j => simp [Address.protocol] at hnid
    | bls k => simp [Address.protocol] at hnbls
    | secp256k1 k => simp [Address.protocol] at hnsecp
    | actor hsh =>
      simp [InnerCallManager.send, StateTree.lookup_id,
        InitActor.State.resolve_address, hopen, hget, hmap, Address.protocol]

/-- Witness for C4: sending to the unresolved actor-style address
`[9]` fails with actor-not-found, leaving the manager untouched. -/
theorem send_resolution_contract_witness :
    InnerCallManager.send extW innerW (.actor [9]) 0 [] 0
      = (.error (.actorNotFound (.actor [9])), innerW) :=
  (send_resolution_contract extW innerW (.actor [9]) 0 0 [] 0).2.2.2
    (by decide) (by decide) (by decide) rfl rfl rfl

/-- C7: auto-creation for the reserved BLS zero address: the fixed
actor-creation gas is charged first (the handed-back manager carries
the increased `gas_used` whenever the charge succeeds, and the charge's
own failure is the result otherwise), the zero address is then rejected
with an illegal-argument error, and the machine — hence the actor
directory — is untouched: no actor record is created. -/
theorem create_account_actor_zero_address (ext : Ext) (cm : InnerCallManager)
    (addr : Address) (hz : addr.is_bls_zero_address = true) :
    ((cm.charge_gas ext.priceOnCreateActor).1 = none →
      InnerCallManager.create_account_actor ext cm addr
        = (.error (.illegalArgument "cannot create the bls zero address actor"),
            (cm.charge_gas ext.priceOnCreateActor).2)) ∧
    ((cm.charge_gas ext.priceOnCreateActor).1 = none →
      (cm.charge_gas ext.priceOnCreateActor).2.gas_tracker.gas_used
        = cm.gas_tracker.gas_used + ext.priceOnCreateActor.total) ∧
    ((cm.charge_gas ext.priceOnCreateActor).2.machine = cm.machine) ∧
    (∀ e, (cm.charge_gas ext.priceOnCreateActor).1 = some e →
      InnerCallManager.create_account_actor ext cm addr
        = (.error e, (cm.charge_gas ext.priceOnCreateActor).2)) := by
  refine ⟨?_, ?_, rfl, ?_⟩
  · intro h
    rcases hcg : cm.charge_gas ext.priceOnCreateActor with ⟨eo, cm1⟩
    rw [hcg] at h
    simp at h
    subst h
    simp [InnerCallManager.create_account_actor, hcg, hz]
  · intro h
    simp only [InnerCallManager.charge_gas, GasTracker.charge_gas] at h ⊢
    by_cases hover : cm.gas_tracker.gas_limit
        < cm.gas_tracker.gas_used + ext.priceOnCreateActor.total
    · simp [hover] at h
    · simp [hover]
  · intro e h
    rcases hcg : cm.charge_gas ext.priceOnCreateActor with ⟨eo, cm1⟩
    rw [hcg] at h
    simp at h
    subst h
    simp [InnerCallManager.create_account_actor, hcg]

/-- Witness for C7 at the concrete manager `innerW` (gas limit 1000,
charge 1): the zero-address creation fails with the illegal-argument
error on the gas-charged manager. -/
theorem create_account_actor_zero_address_witness :
    InnerCallManager.create_account_actor extW innerW BLS_ZERO_ADDRESS
      = (.error (.illegalArgument "cannot create the bls zero address actor"),
          (innerW.charge_gas extW.priceOnCreateActor).2) :=
  (create_account_actor_zero_address extW innerW BLS_ZERO_ADDRESS (by decide)).1
    (by decide)

/-- C8: `send_explicit` equals the resolved-address send on a manager
whose effective sender has been overridden, with the previous sender
restored afterwards on success and on failure alike; and once
auto-creation has charged gas, passed the zero-address check and
created the record, the constructor is invoked exactly through
`send_explicit` with the system actor's reserved ID as sender, zero
value, the constructor method number and the serialized original
address as the parameter. -/
theorem create_account_actor_constructor_invocation (ext : Ext)
    (cm cmAny : InnerCallManager) (addr : Address) (fr toID method : Nat)
    (params : List Nat) (value : Nat) :
    (InnerCallManager.send_explicit ext cmAny fr toID method params value
      = ((InnerCallManager.send_resolved ext { cmAny with «from» := fr } toID method
            params value).1,
          { (InnerCallManager.send_resolved ext { cmAny with «from» := fr } toID method
            params value).2 with «from» := cmAny.«from» })) ∧
    ((InnerCallManager.send_explicit ext cmAny fr toID method params value).2.«from»
        = cmAny.«from») ∧
    (∀ idN st1, (cm.charge_gas ext.priceOnCreateActor).1 = none →
      addr.is_bls_zero_address = false →
      StateTree.create_actor ext.store
          (cm.charge_gas ext.priceOnCreateActor).2.machine.state_tree addr ZERO_STATE
        = (.ok idN, st1) →
      InnerCallManager.create_account_actor ext cm addr
        = (match (constructorCall ext
              { (cm.charge_gas ext.priceOnCreateActor).2 with
                  machine := { state_tree := st1 } } idN addr).1 with
            | .error e => (.error e,
                (constructorCall ext
                  { (cm.charge_gas ext.priceOnCreateActor).2 with
                      machine := { state_tree := st1 } } idN addr).2)
            | .ok _ => (.ok idN,
                (constructorCall ext
                  { (cm.charge_gas ext.priceOnCreateActor).2 with
                      machine := { state_tree := st1 } } idN addr).2))) := by
  refine ⟨rfl, rfl, ?_⟩
  intro idN st1 hch hz hca
  rcases hcg : cm.charge_gas ext.priceOnCreateActor with ⟨eo, cm1⟩
  rw [hcg] at hch hca
  simp at hch
  subst hch
  simp only at hca
  simp [InnerCallManager.create_account_actor, hcg, hz, hca, constructorCall]

/-- Witness for C8: auto-creating an account actor for the Secp256k1
address `[1]` succeeds with the freshly allocated id 100, and the
sender override of a concrete `send_explicit` is restored. -/
theorem create_account_actor_constructor_invocation_witness :
    ((InnerCallManager.send_explicit extW innerW 0 5 1 [] 0).2.«from» = 100) ∧
    ((InnerCallManager.create_account_actor extW innerW (.secp256k1 [1])).1
        = .ok 100) := by
  have h := create_account_actor_constructor_invocation extW innerW innerW
    (.secp256k1 [1]) 0 5 1 [] 0
  refine ⟨h.2.1, ?_⟩
  have h3 := h.2.2 100
    (StateTree.create_actor extW.store
      (innerW.charge_gas extW.priceOnCreateActor).2.machine.state_tree
      (.secp256k1 [1]) ZERO_STATE).2
    (by decide) (by decide) rfl
  rw [congrArg Prod.fst h3]
  rfl

/-- C10: the SDK-side `send` rejects every value whose magnitude does
not fit in two 64-bit digits with `ErrIllegalArgument`, before issuing
any syscall (the recorded syscall trace is empty). -/
theorem sdk_send_rejects_oversized_value (env : Sdk.SysEnv) (a : Address)
    (method : Nat) (params valueDigits : List Nat) (h : 2 < valueDigits.length) :
    Sdk.send env a method params valueDigits
      = some (.error .ErrIllegalArgument, []) := by
  match valueDigits, h with
  | d0 :: d1 :: d2 :: rest, _ =>
    simp [Sdk.send]

/-- Witness for C10 at the three-digit value `[1, 2, 3]`. -/
theorem sdk_send_rejects_oversized_value_witness :
    2 < ([1, 2, 3] : List Nat).length ∧
    Sdk.send envW (.id 3) 0 [] [1, 2, 3]
      = some (.error .ErrIllegalArgument, []) :=
  ⟨by decide, sdk_send_rejects_oversized_value envW (.id 3) 0 [] [1, 2, 3] (by decide)⟩

end RefFvm
